import Mathlib

set_option maxRecDepth 8192

namespace RouterKV

/-! Shallow embedding of RouterDev/router-kv (`src/mod.ts`).

The KV session logic (set/get/list/delete/transaction, event buffering,
KVError wrapping) is translated from `src/mod.ts`.  The backing SQL engine
(libsql) is an external collaborator; its contract is modelled from the
spec's section 6: a `kv` table keyed by `k` with a blob value `v` and two
timestamps, exact-key SELECT / INSERT OR REPLACE / DELETE statements, a
prefix scan (`k LIKE ? || '%'` with a parameter-bound prefix, i.e. a
starts-with match per the spec's glossary entry "Prefix scan"), ORDER BY
over the four columns under binary collation, LIMIT/OFFSET, COUNT, and
transaction handles with commit/rollback.  Timestamps are modelled as
natural numbers (seconds); where the source reads the wall clock
(`new Date()`), the current time is passed in as milliseconds and truncated
to whole seconds by integer division, modelling
`toISOString().slice(0, 19)`. -/

/-- A stored row of the `kv` table (spec section 3, "Record"). -/
structure Row where
  k : String
  v : String
  created_at : Nat
  updated_at : Nat
deriving Repr, DecidableEq

/-- The backing table contents.  The schema's PRIMARY KEY on `k` means real
stores have pairwise distinct keys; theorems that need this take it as a
hypothesis. -/
abbrev Store := List Row

/-- Modelled from the spec: backing-store exact-key lookup
(`SELECT ... FROM kv WHERE k = ?`). -/
def selectByKey (s : Store) (key : String) : Option Row :=
  s.find? (fun r => r.k == key)

/-- Modelled from the spec: `INSERT OR REPLACE INTO kv (k, v) VALUES (?, ?)`.
SQLite REPLACE deletes a conflicting row and inserts a fresh one, so both
timestamp columns take the current time (the `AFTER UPDATE` trigger does not
fire on a REPLACE). -/
def insertOrReplace (s : Store) (key : String) (blob : String) (now : Nat) : Store :=
  (s.filter fun r => !(r.k == key)) ++
    [{ k := key, v := blob, created_at := now, updated_at := now }]

/-- Modelled from the spec: `DELETE FROM kv WHERE k = ?` (unconditional:
deleting an absent key is a no-op success). -/
def deleteRow (s : Store) (key : String) : Store :=
  s.filter fun r => !(r.k == key)

/-- Character-list model of `String.startsWith` (kernel-computable). -/
def isPfxOf : List Char → List Char → Bool
  | [], _ => true
  | _ :: _, [] => false
  | a :: as, b :: bs => (a.toNat == b.toNat) && isPfxOf as bs

/-- Model of `String.startsWith`. -/
def strStartsWith (s pat : String) : Bool := isPfxOf pat.data s.data

/-- Model of `String.endsWith`. -/
def strEndsWith (s pat : String) : Bool := isPfxOf pat.data.reverse s.data.reverse

/-- Codepoint-lexicographic comparison of character lists: the order SQLite's
BINARY collation induces on the stored text (UTF-8 byte order agrees with
codepoint order). -/
def charListLt : List Char → List Char → Bool
  | [], [] => false
  | [], _ :: _ => true
  | _ :: _, [] => false
  | a :: as, b :: bs =>
    if a.toNat < b.toNat then true
    else if b.toNat < a.toNat then false
    else charListLt as bs

/-- Strict text comparison used for ORDER BY under binary collation. -/
def strLt (a b : String) : Bool := charListLt a.data b.data

/-- Non-strict text comparison derived from `strLt`. -/
def strLe (a b : String) : Bool := !(strLt b a)

/-- The `KVError` / raw JS error taxonomy of the session boundary. -/
inductive Err
  | kv (cause : Err)
  | kvMsg (msg : String)
  | user (code : Nat)
deriving Repr, DecidableEq

/-- `KvListOptions` after merging with `defaultOptions` (src/mod.ts). -/
structure KvListOptions where
  limit : Nat
  offset : Nat
  reverse : Bool
  orderBy : String
  includeExactMatch : Bool
deriving Repr, DecidableEq

/-- The caller-supplied `Partial<KvListOptions>` object; `none` means the
field is not present, so the merge keeps the default. -/
structure KvListOptsGiven where
  limit? : Option Nat := none
  offset? : Option Nat := none
  reverse? : Option Bool := none
  orderBy? : Option String := none
  includeExactMatch? : Option Bool := none
deriving Repr, DecidableEq

/-- `defaultOptions` of `list` in src/mod.ts. -/
def defaultOptions : KvListOptions :=
  { limit := 100, offset := 0, reverse := false, orderBy := "k",
    includeExactMatch := false }

/-- The object-spread merge `{ ...defaultOptions, ...options }`. -/
def mergeOptions (o : KvListOptsGiven) : KvListOptions :=
  { limit := o.limit?.getD defaultOptions.limit,
    offset := o.offset?.getD defaultOptions.offset,
    reverse := o.reverse?.getD defaultOptions.reverse,
    orderBy := o.orderBy?.getD defaultOptions.orderBy,
    includeExactMatch := o.includeExactMatch?.getD defaultOptions.includeExactMatch }

/-- The `validColumns` allow-list of `list` in src/mod.ts. -/
def validColumns : List String := ["k", "v", "created_at", "updated_at"]

/-- The normalized scan string `queryWithColon` of `list` in src/mod.ts:
append `:` when the caller's string is non-empty and does not already end
with `:`. -/
def scanPfx (p : String) : String :=
  if (p != "") && !(strEndsWith p ":") then p ++ ":" else p

/-- The WHERE predicate of `list` in src/mod.ts:
`k LIKE queryWithColon || '%'`, OR-ed with `k = query` (the original,
unmodified caller string) when `includeExactMatch` is set. -/
def listPred (p : String) (iem : Bool) (key : String) : Bool :=
  strStartsWith key (scanPfx p) || (iem && (key == p))

/-- Strict comparison on one ORDER BY column. -/
def colLt (c : String) (a b : Row) : Bool :=
  if c == "v" then strLt a.v b.v
  else if c == "created_at" then decide (a.created_at < b.created_at)
  else if c == "updated_at" then decide (a.updated_at < b.updated_at)
  else strLt a.k b.k

/-- The ascending ORDER BY relation of `list` in src/mod.ts: the requested
column alone when it is the default column `k`, otherwise the requested
column with the default column appended as a tie-breaker
(`ORDER BY c dir, k dir`). -/
def rowLe (c : String) (a b : Row) : Bool :=
  if c == "k" then strLe a.k b.k
  else colLt c a b || (!(colLt c b a) && strLe a.k b.k)

/-- The full ORDER BY relation: `reverse` flips the direction of the primary
column and of the tie-breaker (both get `DESC`). -/
def sortLe (c : String) (rev : Bool) (a b : Row) : Bool :=
  if rev then rowLe c b a else rowLe c a b

/-- `sortLe` as a decidable Prop relation, for `List.insertionSort`. -/
def SortR (c : String) (rev : Bool) : Row → Row → Prop :=
  fun a b => sortLe c rev a b = true

instance (c : String) (rev : Bool) : DecidableRel (SortR c rev) := fun a b =>
  inferInstanceAs (Decidable (sortLe c rev a b = true))

/-- The `meta` object returned by `list`: `{ total, ...mergedOptions }`. -/
structure KvMeta extends KvListOptions where
  total : Nat
deriving Repr, DecidableEq

/-- The return shape of `list`. -/
structure KvListOutput where
  data : List Row
  meta : KvMeta
deriving Repr, DecidableEq

/-- `list` from src/mod.ts: merge the option defaults, validate `orderBy`
against the allow-list, filter by the prefix-scan predicate, sort by the
ORDER BY relation (ORDER BY is modelled as the sorted permutation of the
matching rows; with distinct keys the relation is total so the permutation
is unique), apply OFFSET then LIMIT, and answer the option-independent
COUNT query for `meta.total`. -/
def list (p : String) (options : KvListOptsGiven) (s : Store) :
    Except Err KvListOutput :=
  let m := mergeOptions options
  if !(validColumns.contains m.orderBy) then
    .error (.kvMsg ("Invalid orderBy column: " ++ m.orderBy ++ "."))
  else
    let matching := s.filter fun r => listPred p m.includeExactMatch r.k
    let sorted := matching.insertionSort (SortR m.orderBy m.reverse)
    .ok { data := (sorted.drop m.offset).take m.limit,
          meta := { toKvListOptions := m, total := matching.length } }

/-- Projection used to compare the payloads of two `list` calls. -/
def dataOf (o : Except Err KvListOutput) : List Row :=
  match o with
  | .ok out => out.data
  | .error _ => []

example :
    scanPfx "temperature" = "temperature:" ∧ scanPfx "" = "" ∧
      scanPfx "a:" = "a:" := by decide

example : listPred "a" true "a" = true ∧ listPred "a" false "a" = false ∧
    listPred "a" false "a:1" = true ∧ listPred "a" false "ab" = false := by
  decide

/-- The record carried by a `KvEvent`.  A field is `none` when it is absent
from the JS object (spreading an `undefined` readback row produces an object
with no `k`/`created_at`/`updated_at`); for `v`, `none` encodes the JSON
value `null`, which is what every delete event stores in `v`. -/
structure EvRecord where
  k : Option String
  v : Option String
  created_at : Option Nat
  updated_at : Option Nat
deriving Repr, DecidableEq

/-- The `KvEvent` union of src/types.ts: `{ type: "set" | "delete", data }`. -/
inductive KvEvent
  | set (data : EvRecord)
  | delete (data : EvRecord)
deriving Repr, DecidableEq

/-- Whether an event is `set`-typed. -/
def KvEvent.isSetEv : KvEvent → Bool
  | .set _ => true
  | .delete _ => false

/-- The event record built by a successful `set` readback (all fields
present). -/
def evOfRow (r : Row) : EvRecord :=
  { k := some r.k, v := some r.v, created_at := some r.created_at,
    updated_at := some r.updated_at }

/-- The event record built by `delete`: spread the pre-delete readback row
(which may be `undefined` when the key is absent, spreading to `{}`), then
override `v` with `null` and `updated_at` with the local wall clock
truncated to whole seconds
(`new Date().toISOString().slice(0, 19).replace("T", " ")`). -/
def deleteEvRec (found : Option Row) (nowMs : Nat) : EvRecord :=
  match found with
  | some r =>
    { k := some r.k, v := none, created_at := some r.created_at,
      updated_at := some (nowMs / 1000) }
  | none =>
    { k := none, v := none, created_at := none,
      updated_at := some (nowMs / 1000) }

/-- A configured event listener: user code that either returns (`none`) or
throws an error when handed an event. -/
abbrev Lsn := KvEvent → Option Err

/-- Whether a session is bound to the long-lived client (`root`) or to an
in-flight transaction handle (`nested`); `isTransaction()` in src/mod.ts
distinguishes them by probing for a `transaction` method on the bound
instance. -/
inductive SessKind
  | root
  | nested
deriving Repr, DecidableEq

/-- Observable backing-store and listener activity, in chronological order. -/
inductive Action
  | began
  | committed
  | rolledBack
  | invoked (ev : KvEvent)
deriving Repr, DecidableEq

/-- The state threaded through the session operations: the store visible to
the bound instance, this session's event buffer, and the chronological log
of transaction-lifecycle calls and listener invocations. -/
structure TraceState where
  store : Store
  buf : List KvEvent
  log : List Action
deriving Repr, DecidableEq

/-- `delete` from src/mod.ts: batch a pre-delete readback with the DELETE,
then (only when a listener is configured) build the delete event; buffer it
inside a transaction, otherwise invoke the listener inline.  A listener
throw is caught by the surrounding try and re-raised as a `KVError`. -/
def del (kind : SessKind) (olsn : Option Lsn) (key : String) (nowMs : Nat)
    (st : TraceState) : Except Err Unit × TraceState :=
  let found := selectByKey st.store key
  let st1 : TraceState := { st with store := deleteRow st.store key }
  match olsn with
  | none => (.ok (), st1)
  | some l =>
    let ev := KvEvent.delete (deleteEvRec found nowMs)
    if kind == SessKind.nested then
      (.ok (), { st1 with buf := st1.buf ++ [ev] })
    else
      let st2 : TraceState := { st1 with log := st1.log ++ [Action.invoked ev] }
      match l ev with
      | none => (.ok (), st2)
      | some e => (.error (.kv e), st2)

/-- `set` from src/mod.ts: a `null` value routes to `delete` and returns
`null` (any error from that `delete` is re-wrapped by `set`'s own catch);
otherwise INSERT OR REPLACE, read the row back, build the `set` event, and
buffer or dispatch it exactly as `delete` does. -/
def set (kind : SessKind) (olsn : Option Lsn) (key : String)
    (value : Option String) (nowMs : Nat) (st : TraceState) :
    Except Err (Option Row) × TraceState :=
  match value with
  | none =>
    match del kind olsn key nowMs st with
    | (.ok _, st') => (.ok none, st')
    | (.error e, st') => (.error (.kv e), st')
  | some blob =>
    let store1 := insertOrReplace st.store key blob (nowMs / 1000)
    match selectByKey store1 key with
    | none => (.error (.kv (.kvMsg "readback row missing")), st)
    | some row =>
      let ev := KvEvent.set (evOfRow row)
      let st1 : TraceState := { st with store := store1 }
      match olsn with
      | none => (.ok (some row), st1)
      | some l =>
        if kind == SessKind.nested then
          (.ok (some row), { st1 with buf := st1.buf ++ [ev] })
        else
          let st2 : TraceState :=
            { st1 with log := st1.log ++ [Action.invoked ev] }
          match l ev with
          | none => (.ok (some row), st2)
          | some e => (.error (.kv e), st2)

/-- `get` from src/mod.ts: exact-key lookup, `null` when absent. -/
def get (s : Store) (key : String) : Except Err (Option Row) :=
  match selectByKey s key with
  | none => .ok none
  | some r =>
    .ok (some { k := r.k, v := r.v, created_at := r.created_at,
                updated_at := r.updated_at })

/-- A transaction callback, embedded as the sequence of KV operations the
user code performs on the nested session it is handed; `failC` models user
code throwing its own error, and `txC` models calling `transaction` again
on the nested session. -/
inductive Cmd
  | setC (key : String) (value : Option String)
  | delC (key : String)
  | failC (code : Nat)
  | txC (prog : List Cmd)

/-- Whether running the command emits a `set`-typed event (a `set` with a
`null` value routes to `delete` and emits a delete-typed event). -/
def Cmd.emitsSetEvent : Cmd → Bool
  | .setC _ (some _) => true
  | _ => false

/-- Running the callback's operations on the nested session.  Note the
`txC` case: `transaction` called on a nested session fails immediately
(`isTransaction()` is true there) with no backing call of any kind. -/
def runNested (olsn : Option Lsn) (nowMs : Nat) :
    List Cmd → TraceState → Except Err Unit × TraceState
  | [], st => (.ok (), st)
  | c :: rest, st =>
    let step : Except Err Unit × TraceState :=
      match c with
      | .setC key value =>
        match set SessKind.nested olsn key value nowMs st with
        | (.ok _, st') => (.ok (), st')
        | (.error e, st') => (.error e, st')
      | .delC key => del SessKind.nested olsn key nowMs st
      | .failC code => (.error (.user code), st)
      | .txC _ =>
        (.error (.kvMsg "Nested transactions are not supported."), st)
    match step with
    | (.ok _, st') => runNested olsn nowMs rest st'
    | (.error e, st') => (.error e, st')

/-- Entering a transaction: `instance.transaction(mode)` opens the backing
handle, and the nested session starts with a fresh empty event buffer. -/
def txEnter (st : TraceState) : TraceState :=
  { st with buf := [], log := st.log ++ [Action.began] }

/-- The post-commit replay loop of `transaction` in src/mod.ts: hand each
buffered event to the listener in emission order; stop at the first throw. -/
def replay (l : Lsn) : List KvEvent → TraceState → Except Err Unit × TraceState
  | [], st => (.ok (), st)
  | ev :: rest, st =>
    let st1 : TraceState := { st with log := st.log ++ [Action.invoked ev] }
    match l ev with
    | some e => (.error e, st1)
    | none => replay l rest st1

/-- The try/catch tail of `transaction` in src/mod.ts, applied to the
callback's outcome.  On callback success the backing transaction commits
and the nested buffer is replayed; any error raised inside the try block —
by the callback or by the listener during replay — reaches the catch,
which calls `rollback()` (on the already-committed handle this cannot undo
the durable commit; it is modelled as a no-op on the store) and re-raises
the error wrapped as a `KVError`. -/
def txFinish (olsn : Option Lsn) (outer : TraceState) (ret : Nat)
    (r : Except Err Unit) (txSt : TraceState) : Except Err Nat × TraceState :=
  match r with
  | .error e =>
    (.error (.kv e),
      { store := outer.store, buf := outer.buf,
        log := txSt.log ++ [Action.rolledBack] })
  | .ok _ =>
    let committed : TraceState :=
      { store := txSt.store, buf := outer.buf,
        log := txSt.log ++ [Action.committed] }
    match olsn with
    | none => (.ok ret, committed)
    | some l =>
      match replay l txSt.buf committed with
      | (.ok _, st') => (.ok ret, st')
      | (.error e, st') =>
        (.error (.kv e), { st' with log := st'.log ++ [Action.rolledBack] })

/-- `transaction` from src/mod.ts: refuse nested sessions up front, then run
the callback on a fresh nested session and finish with commit-and-replay or
rollback.  `ret` stands for the value the callback returns on success. -/
def transaction (olsn : Option Lsn) (nowMs : Nat) (kind : SessKind)
    (prog : List Cmd) (ret : Nat) (st : TraceState) :
    Except Err Nat × TraceState :=
  if kind == SessKind.nested then
    (.error (.kvMsg "Nested transactions are not supported."), st)
  else
    match runNested olsn nowMs prog (txEnter st) with
    | (r, txSt) => txFinish olsn st ret r txSt

/-- A JS `number` as it can reach the `syncInterval` check: either an actual
numeric value or `NaN`. -/
inductive JsNum
  | nan
  | num (n : Int)
deriving Repr, DecidableEq

/-- The `OpenKVOptions` fields that `openKV` inspects before connecting. -/
structure OpenKVOptions where
  readReplicaPath : Option String := none
  syncInterval : Option JsNum := none
deriving Repr, DecidableEq

/-- The libsql `Config` object handed to `createClient`. -/
structure TursoConfig where
  url : String
  syncUrl : Option String
  authToken : Option String
  syncInterval : Option JsNum
deriving Repr, DecidableEq

/-- The observable outcome of `openKV`: an error thrown before connecting,
or `createClient`/`setupDatabase` reached with the built config. -/
inductive OpenOutcome
  | thrown (msg : String)
  | connected (cfg : TursoConfig)
deriving Repr, DecidableEq

/-- JS truthiness of `options?.syncInterval`: `undefined`, `0` and `NaN` are
all falsy. -/
def jsTruthyNum : Option JsNum → Bool
  | none => false
  | some .nan => false
  | some (.num n) => n != 0

/-- JS `isNaN` on `options.syncInterval` (`isNaN(undefined)` is true, though
that branch is unreachable behind the truthiness guard). -/
def jsIsNaN : Option JsNum → Bool
  | none => true
  | some .nan => true
  | some (.num _) => false

/-- `openKV` from src/mod.ts up to the point of connecting: the url and
authToken presence checks, the `options?.syncInterval && isNaN(...)` guard,
and the config construction (read-replica path swaps the urls and forwards
`syncInterval`). -/
def openKV (url : String) (authToken : String)
    (options : Option OpenKVOptions) : OpenOutcome :=
  if url == "" then .thrown "DB url missing"
  else if authToken == "" then .thrown "DB AuthToken missing"
  else if jsTruthyNum (options.bind (·.syncInterval)) &&
      jsIsNaN (options.bind (·.syncInterval)) then
    .thrown "syncInterval must be number"
  else
    match options.bind (·.readReplicaPath) with
    | some path =>
      .connected { url := path, syncUrl := some url,
                   authToken := some authToken,
                   syncInterval := options.bind (·.syncInterval) }
    | none =>
      .connected { url := url, syncUrl := none, authToken := some authToken,
                   syncInterval := none }

/-! Helper lemmas about the backing-store primitives. -/

theorem selectByKey_deleteRow (s : Store) (key : String) :
    selectByKey (deleteRow s key) key = none := by
  rw [selectByKey, List.find?_eq_none]
  intro r hr
  have := (List.mem_filter.mp hr).2
  simpa using this

theorem selectByKey_insertOrReplace (s : Store) (key blob : String) (now : Nat) :
    selectByKey (insertOrReplace s key blob now) key =
      some { k := key, v := blob, created_at := now, updated_at := now } := by
  rw [selectByKey, insertOrReplace, List.find?_append]
  have h1 : (s.filter fun r => !(r.k == key)).find? (fun r => r.k == key) = none := by
    rw [List.find?_eq_none]
    intro r hr
    have := (List.mem_filter.mp hr).2
    simpa using this
  simp [h1]

/-! Step-shape lemmas for the session operations on a nested session. -/

theorem del_nested_some (l : Lsn) (key : String) (nowMs : Nat) (st : TraceState) :
    del SessKind.nested (some l) key nowMs st =
      (.ok (),
        { store := deleteRow st.store key,
          buf := st.buf ++ [KvEvent.delete (deleteEvRec (selectByKey st.store key) nowMs)],
          log := st.log }) := rfl

theorem del_nested_none (key : String) (nowMs : Nat) (st : TraceState) :
    del SessKind.nested none key nowMs st =
      (.ok (), { st with store := deleteRow st.store key }) := rfl

theorem set_nested_some_null (l : Lsn) (key : String) (nowMs : Nat) (st : TraceState) :
    set SessKind.nested (some l) key none nowMs st =
      (.ok none,
        { store := deleteRow st.store key,
          buf := st.buf ++ [KvEvent.delete (deleteEvRec (selectByKey st.store key) nowMs)],
          log := st.log }) := rfl

theorem set_nested_some_val (l : Lsn) (key blob : String) (nowMs : Nat) (st : TraceState) :
    set SessKind.nested (some l) key (some blob) nowMs st =
      (.ok (some { k := key, v := blob, created_at := nowMs / 1000, updated_at := nowMs / 1000 }),
        { store := insertOrReplace st.store key blob (nowMs / 1000),
          buf := st.buf ++ [KvEvent.set (evOfRow
            { k := key, v := blob, created_at := nowMs / 1000, updated_at := nowMs / 1000 })],
          log := st.log }) := by
  rw [set, selectByKey_insertOrReplace]
  rfl

theorem set_nested_none_val (key blob : String) (nowMs : Nat) (st : TraceState) :
    set SessKind.nested none key (some blob) nowMs st =
      (.ok (some { k := key, v := blob, created_at := nowMs / 1000, updated_at := nowMs / 1000 }),
        { st with store := insertOrReplace st.store key blob (nowMs / 1000) }) := by
  rw [set, selectByKey_insertOrReplace]

theorem setRootSomeVal (l : Lsn) (key blob : String) (nowMs : Nat) (st : TraceState) :
    set SessKind.root (some l) key (some blob) nowMs st =
      (let row : Row :=
        { k := key, v := blob, created_at := nowMs / 1000, updated_at := nowMs / 1000 }
      let ev := KvEvent.set (evOfRow row)
      let st2 : TraceState :=
        { store := insertOrReplace st.store key blob (nowMs / 1000), buf := st.buf,
          log := st.log ++ [Action.invoked ev] }
      match l ev with
      | none => (.ok (some row), st2)
      | some e => (.error (.kv e), st2)) := by
  rw [set, selectByKey_insertOrReplace]
  rfl

/-- A nested session never invokes the listener and never touches the
backing-store lifecycle: its operations leave the chronological log alone. -/
theorem set_nested_log (olsn : Option Lsn) (key : String) (value : Option String)
    (nowMs : Nat) (st : TraceState) :
    (set SessKind.nested olsn key value nowMs st).2.log = st.log := by
  cases value with
  | none => cases olsn with
    | none => rfl
    | some l => rfl
  | some blob => cases olsn with
    | none => rw [set_nested_none_val]
    | some l => rw [set_nested_some_val]

theorem del_nested_log (olsn : Option Lsn) (key : String) (nowMs : Nat) (st : TraceState) :
    (del SessKind.nested olsn key nowMs st).2.log = st.log := by
  cases olsn with
  | none => rfl
  | some l => rfl

theorem runNested_log (olsn : Option Lsn) (nowMs : Nat) (prog : List Cmd)
    (st : TraceState) :
    (runNested olsn nowMs prog st).2.log = st.log := by
  induction prog generalizing st with
  | nil => rfl
  | cons c rest ih =>
    cases c with
    | setC key value =>
      have h := set_nested_log olsn key value nowMs st
      cases hs : set SessKind.nested olsn key value nowMs st with
      | mk r st' =>
        rw [hs] at h
        cases r with
        | ok a =>
          simp only [runNested, hs]
          rw [ih st', h]
        | error e =>
          simp only [runNested, hs]
          exact h
    | delC key =>
      have h := del_nested_log olsn key nowMs st
      cases hs : del SessKind.nested olsn key nowMs st with
      | mk r st' =>
        rw [hs] at h
        cases r with
        | ok a =>
          simp only [runNested, hs]
          rw [ih st', h]
        | error e =>
          simp only [runNested, hs]
          exact h
    | failC code => rfl
    | txC prog => rfl

/-- A listener that never throws lets `replay` hand over every buffered
event, in order, appending one `invoked` entry per event to the log. -/
theorem replay_ok (l : Lsn) (hben : ∀ ev, l ev = none) (evs : List KvEvent)
    (st : TraceState) :
    replay l evs st = (.ok (), { st with log := st.log ++ evs.map Action.invoked }) := by
  induction evs generalizing st with
  | nil => simp [replay]
  | cons ev rest ih =>
    rw [replay, hben ev, ih]
    simp

/-- `replay` only invokes the listener: it never touches the store or the
buffer. -/
theorem replay_store_buf (l : Lsn) (evs : List KvEvent) (st : TraceState) :
    (replay l evs st).2.store = st.store ∧ (replay l evs st).2.buf = st.buf := by
  induction evs generalizing st with
  | nil => exact ⟨rfl, rfl⟩
  | cons ev rest ih =>
    rw [replay]
    cases h : l ev with
    | some e => exact ⟨rfl, rfl⟩
    | none => exact ih _

/-- A successful callback run on a nested session leaves the log alone and
appends to the fresh buffer exactly one event per executed command, in
order, whose `set`/`delete` type matches the command (`set` with `null`
routes to `delete`). -/
theorem runNested_ok_buf (l : Lsn) (nowMs : Nat) (prog : List Cmd)
    (st txSt : TraceState)
    (h : runNested (some l) nowMs prog st = (.ok (), txSt)) :
    ∃ evs, txSt.buf = st.buf ++ evs ∧
      evs.map KvEvent.isSetEv = prog.map Cmd.emitsSetEvent := by
  induction prog generalizing st with
  | nil =>
    refine ⟨[], ?_, rfl⟩
    have : st = txSt := by
      have := congrArg Prod.snd h
      simpa [runNested] using this
    simp [this]
  | cons c rest ih =>
    cases c with
    | setC key value =>
      cases value with
      | none =>
        rw [runNested, set_nested_some_null] at h
        obtain ⟨evs, hbuf, htag⟩ := ih _ h
        refine ⟨KvEvent.delete (deleteEvRec (selectByKey st.store key) nowMs) :: evs, ?_, ?_⟩
        · simpa using hbuf
        · simpa [KvEvent.isSetEv, Cmd.emitsSetEvent] using htag
      | some blob =>
        rw [runNested, set_nested_some_val] at h
        obtain ⟨evs, hbuf, htag⟩ := ih _ h
        refine ⟨KvEvent.set (evOfRow
          { k := key, v := blob, created_at := nowMs / 1000,
            updated_at := nowMs / 1000 }) :: evs, ?_, ?_⟩
        · simpa using hbuf
        · simpa [KvEvent.isSetEv, Cmd.emitsSetEvent] using htag
    | delC key =>
      rw [runNested, del_nested_some] at h
      obtain ⟨evs, hbuf, htag⟩ := ih _ h
      refine ⟨KvEvent.delete (deleteEvRec (selectByKey st.store key) nowMs) :: evs, ?_, ?_⟩
      · simpa using hbuf
      · simpa [KvEvent.isSetEv, Cmd.emitsSetEvent] using htag
    | failC code => simp [runNested] at h
    | txC prog => simp [runNested] at h

instance {ε α : Type} [DecidableEq ε] [DecidableEq α] : DecidableEq (Except ε α) :=
  fun a b =>
    match a, b with
    | .ok x, .ok y =>
      if h : x = y then .isTrue (by rw [h]) else .isFalse (by simp [h])
    | .error x, .error y =>
      if h : x = y then .isTrue (by rw [h]) else .isFalse (by simp [h])
    | .ok _, .error _ => .isFalse (by simp)
    | .error _, .ok _ => .isFalse (by simp)

/-! Claim theorems. -/

/-- C2: a transaction whose callback throws rolls the backing transaction
back, so the final store is the pre-transaction store; the nested buffer is
discarded (the outer buffer is restored); the log gains only `began` and
`rolledBack`, so the listener is invoked zero times for the attempt; and the
callback's error is re-raised wrapped as a `KVError`. -/
theorem txRollback_onCallbackError (olsn : Option Lsn) (nowMs : Nat)
    (prog : List Cmd) (ret : Nat) (st : TraceState) (e : Err) (txSt : TraceState)
    (h : runNested olsn nowMs prog (txEnter st) = (.error e, txSt)) :
    transaction olsn nowMs SessKind.root prog ret st =
      (.error (.kv e),
        { store := st.store, buf := st.buf,
          log := st.log ++ [Action.began, Action.rolledBack] }) := by
  have hlog := runNested_log olsn nowMs prog (txEnter st)
  rw [h] at hlog
  have hlog' : txSt.log = st.log ++ [Action.began] := by
    simpa [txEnter] using hlog
  rw [transaction]
  simp only [show (SessKind.root == SessKind.nested) = false from rfl]
  rw [h]
  simp [txFinish, hlog']

/-- C3: a transaction whose callback and commit succeed returns the
callback's result; the committed store is the nested session's final store;
and the log shows the commit happening first and then exactly one listener
invocation per buffered event, in emission order, where the buffer holds one
event per write command of the callback, in order, with matching
`set`/`delete` type. -/
theorem txCommit_replaysBuffer (l : Lsn) (nowMs : Nat) (prog : List Cmd)
    (ret : Nat) (st txSt : TraceState)
    (hben : ∀ ev, l ev = none)
    (h : runNested (some l) nowMs prog (txEnter st) = (.ok (), txSt)) :
    transaction (some l) nowMs SessKind.root prog ret st =
      (.ok ret,
        { store := txSt.store, buf := st.buf,
          log := (st.log ++ [Action.began, Action.committed]) ++
            txSt.buf.map Action.invoked })
    ∧ txSt.buf.map KvEvent.isSetEv = prog.map Cmd.emitsSetEvent := by
  have hlog := runNested_log (some l) nowMs prog (txEnter st)
  rw [h] at hlog
  have hlog' : txSt.log = st.log ++ [Action.began] := by
    simpa [txEnter] using hlog
  obtain ⟨evs, hbuf, htag⟩ := runNested_ok_buf l nowMs prog (txEnter st) txSt h
  constructor
  · rw [transaction]
    simp only [show (SessKind.root == SessKind.nested) = false from rfl]
    rw [h]
    rw [txFinish]
    simp only [replay_ok l hben]
    simp [hlog']
  · have : txSt.buf = evs := by simpa [txEnter] using hbuf
    rw [this, htag]

/-- C1 (amended): when the callback and commit succeed but the listener
throws while the buffered events are replayed, the error reaches
`transaction`'s catch block: a rollback of the already-committed backing
transaction is attempted (logged after the commit and the replayed
invocations; it cannot undo the commit, so the store keeps the nested
session's writes), and the listener's error is re-raised wrapped as a
`KVError` rather than surfacing unwrapped. -/
theorem txListenerThrow_wrappedRollback (l : Lsn) (nowMs ret : Nat)
    (prog : List Cmd) (st txSt st' : TraceState) (e : Err)
    (h : runNested (some l) nowMs prog (txEnter st) = (.ok (), txSt))
    (hrep : replay l txSt.buf
      { store := txSt.store, buf := st.buf,
        log := txSt.log ++ [Action.committed] } = (.error e, st')) :
    transaction (some l) nowMs SessKind.root prog ret st =
      (.error (.kv e), { st' with log := st'.log ++ [Action.rolledBack] })
    ∧ st'.store = txSt.store ∧ st'.buf = st.buf := by
  have hsb := replay_store_buf l txSt.buf
    { store := txSt.store, buf := st.buf, log := txSt.log ++ [Action.committed] }
  rw [hrep] at hsb
  refine ⟨?_, hsb.1, hsb.2⟩
  rw [transaction]
  simp only [show (SessKind.root == SessKind.nested) = false from rfl]
  rw [h]
  rw [txFinish]
  simp only [hrep]
  simp

/-- C1 (counterexample to the claim as stated): with a listener that throws
on the first replayed event, the transaction caller receives the listener's
error wrapped as a `KVError` (not the bare error), and a rollback of the
already-committed backing transaction is attempted (while the committed
write survives in the store). -/
theorem txListenerThrow_cex :
    transaction (some ((fun _ => some (Err.user 7)) : Lsn)) 0 SessKind.root
        [Cmd.setC "a" (some "1")] 0 { store := [], buf := [], log := [] } =
      (.error (.kv (.user 7)),
        { store := [{ k := "a", v := "1", created_at := 0, updated_at := 0 }],
          buf := [],
          log := [Action.began, Action.committed,
            Action.invoked (KvEvent.set (evOfRow
              { k := "a", v := "1", created_at := 0, updated_at := 0 })),
            Action.rolledBack] })
    ∧ transaction (some ((fun _ => some (Err.user 7)) : Lsn)) 0 SessKind.root
        [Cmd.setC "a" (some "1")] 0 { store := [], buf := [], log := [] } ≠
      (.error (.user 7),
        { store := [{ k := "a", v := "1", created_at := 0, updated_at := 0 }],
          buf := [],
          log := [Action.began, Action.committed,
            Action.invoked (KvEvent.set (evOfRow
              { k := "a", v := "1", created_at := 0, updated_at := 0 }))] }) := by
  constructor
  · rfl
  · decide

/-- C7 (amended): calling `transaction` on a nested session fails
immediately with `KVError("Nested transactions are not supported.")`,
returning the state untouched: no backing-store call is made (no `began`,
`committed` or `rolledBack` is logged, the store is unchanged) and the
event buffer is exactly what it was. -/
theorem txNested_failsImmediately (olsn : Option Lsn) (nowMs : Nat)
    (prog : List Cmd) (ret : Nat) (st : TraceState) :
    transaction olsn nowMs SessKind.nested prog ret st =
      (.error (.kvMsg "Nested transactions are not supported."), st) := rfl

/-- C7 (counterexample to the exact message in the claim): the error is
`KVError("Nested transactions are not supported.")`, not
`KVError("nested transactions not supported")`. -/
theorem txNested_message_cex :
    transaction none 0 SessKind.nested [] 0 { store := [], buf := [], log := [] } =
      (.error (.kvMsg "Nested transactions are not supported."),
        { store := [], buf := [], log := [] })
    ∧ transaction none 0 SessKind.nested [] 0 { store := [], buf := [], log := [] } ≠
      (.error (.kvMsg "nested transactions not supported"),
        { store := [], buf := [], log := [] }) := by
  constructor
  · rfl
  · decide

theorem delRootSome (l : Lsn) (key : String) (nowMs : Nat) (st : TraceState) :
    del SessKind.root (some l) key nowMs st =
      (let ev := KvEvent.delete (deleteEvRec (selectByKey st.store key) nowMs)
       let st2 : TraceState :=
         { store := deleteRow st.store key, buf := st.buf,
           log := st.log ++ [Action.invoked ev] }
       match l ev with
       | none => (.ok (), st2)
       | some e => (.error (.kv e), st2)) := rfl

theorem deleteRow_of_absent (s : Store) (key : String)
    (h : selectByKey s key = none) : deleteRow s key = s := by
  rw [selectByKey, List.find?_eq_none] at h
  rw [deleteRow]
  rw [List.filter_eq_self]
  intro r hr
  have := h r hr
  simpa using this

/-- C6: `set(key, null)` routes to `delete(key)` (same state effects as the
delete) and returns `null`; with a listener configured it emits exactly one
delete-typed event for that call — buffered on a nested session, invoked
inline on a root session — and never a set-typed event; afterwards
`get(key)` returns `null`. -/
theorem setNull_routesToDelete (kind : SessKind) (l : Lsn) (key : String)
    (nowMs : Nat) (st : TraceState) (hben : ∀ ev, l ev = none) :
    (set kind (some l) key none nowMs st).1 = .ok none
    ∧ (set kind (some l) key none nowMs st).2 = (del kind (some l) key nowMs st).2
    ∧ (set kind (some l) key none nowMs st).2.store = deleteRow st.store key
    ∧ (if kind = SessKind.nested then
        (set kind (some l) key none nowMs st).2.buf =
          st.buf ++ [KvEvent.delete (deleteEvRec (selectByKey st.store key) nowMs)] ∧
        (set kind (some l) key none nowMs st).2.log = st.log
      else
        (set kind (some l) key none nowMs st).2.log =
          st.log ++ [Action.invoked
            (KvEvent.delete (deleteEvRec (selectByKey st.store key) nowMs))] ∧
        (set kind (some l) key none nowMs st).2.buf = st.buf)
    ∧ get (set kind (some l) key none nowMs st).2.store key = .ok none := by
  cases kind with
  | nested =>
    rw [set_nested_some_null, del_nested_some]
    simp [get, selectByKey_deleteRow]
  | root =>
    rw [show (set SessKind.root (some l) key none nowMs st) =
      (match del SessKind.root (some l) key nowMs st with
       | (.ok _, st') => (.ok none, st')
       | (.error e, st') => (.error (.kv e), st')) from rfl]
    rw [delRootSome]
    simp only [hben]
    simp [get, selectByKey_deleteRow]

/-- C10: deleting a key that is absent from the store, with a listener
configured, still succeeds and still produces a delete-typed event —
invoked inline on a root session, buffered on a nested one — whose record
is the spread of the missing readback row: it has no `k` and no
`created_at`, only `v = null` and an `updated_at` equal to the local wall
clock truncated to whole seconds.  The store is unchanged. -/
theorem deleteMissingKey_event (kind : SessKind) (l : Lsn) (key : String)
    (nowMs : Nat) (st : TraceState)
    (habs : selectByKey st.store key = none)
    (hben : ∀ ev, l ev = none) :
    del kind (some l) key nowMs st =
      (.ok (),
        if kind = SessKind.nested then
          { st with buf := st.buf ++ [KvEvent.delete
            { k := none, v := none, created_at := none,
              updated_at := some (nowMs / 1000) }] }
        else
          { st with log := st.log ++ [Action.invoked (KvEvent.delete
            { k := none, v := none, created_at := none,
              updated_at := some (nowMs / 1000) })] }) := by
  cases kind with
  | nested =>
    rw [del_nested_some, habs, deleteRow_of_absent st.store key habs]
    simp [deleteEvRec]
  | root =>
    rw [delRootSome, habs, deleteRow_of_absent st.store key habs]
    simp only [deleteEvRec, hben]
    simp

/-- C9 (code bug): `openKV` never rejects a number-typed `syncInterval`,
because the guard `options?.syncInterval && isNaN(...)` short-circuits on
falsy values and `NaN` is falsy — so the one number value `isNaN` would
catch slips through, and `openKV` proceeds to connect. -/
theorem openKV_nanSyncInterval_connects :
    (∀ si : Option JsNum,
      openKV "libsql://db" "token"
          (some { readReplicaPath := none, syncInterval := si }) ≠
        .thrown "syncInterval must be number")
    ∧ openKV "libsql://db" "token"
        (some { readReplicaPath := none, syncInterval := some JsNum.nan }) =
      .connected { url := "libsql://db", syncUrl := none,
                   authToken := some "token", syncInterval := none } := by
  refine ⟨?_, rfl⟩
  intro si
  cases si with
  | none => decide
  | some j =>
    cases j with
    | nan => decide
    | num n =>
      rw [openKV]
      simp only [show (("libsql://db" : String) == "") = false from rfl,
        show (("token" : String) == "") = false from rfl,
        show (jsIsNaN (Option.bind
          (some { readReplicaPath := none, syncInterval := some (JsNum.num n) } :
            Option OpenKVOptions) (·.syncInterval))) = false from rfl]
      simp

/-! Order-theoretic facts about the ORDER BY relations. -/

theorem charListLt_irrefl (a : List Char) : charListLt a a = false := by
  induction a with
  | nil => rfl
  | cons x xs ih => simp [charListLt, ih]

theorem charListLt_trans (a : List Char) : ∀ b c : List Char,
    charListLt a b = true → charListLt b c = true → charListLt a c = true := by
  induction a with
  | nil =>
    intro b c h1 h2
    cases b with
    | nil => simp [charListLt] at h1
    | cons y ys =>
      cases c with
      | nil => simp [charListLt] at h2
      | cons z zs => simp [charListLt]
  | cons x xs ih =>
    intro b c h1 h2
    cases b with
    | nil => simp [charListLt] at h1
    | cons y ys =>
      cases c with
      | nil => simp [charListLt] at h2
      | cons z zs =>
        rw [charListLt] at h1 h2 ⊢
        by_cases hxy : x.toNat < y.toNat
        · by_cases hyz : y.toNat < z.toNat
          · simp [show x.toNat < z.toNat by omega]
          · by_cases hzy : z.toNat < y.toNat
            · simp [hyz, hzy] at h2
            · simp [show x.toNat < z.toNat by omega]
        · by_cases hyx : y.toNat < x.toNat
          · simp [hxy, hyx] at h1
          · simp [hxy, hyx] at h1
            by_cases hyz : y.toNat < z.toNat
            · simp [show x.toNat < z.toNat by omega]
            · by_cases hzy : z.toNat < y.toNat
              · simp [hyz, hzy] at h2
              · simp [hyz, hzy] at h2
                simp [show ¬ x.toNat < z.toNat by omega,
                  show ¬ z.toNat < x.toNat by omega]
                exact ih ys zs h1 h2

theorem charListLt_eq_of_negboth (a : List Char) : ∀ b : List Char,
    charListLt a b = false → charListLt b a = false → a = b := by
  induction a with
  | nil =>
    intro b h1 _
    cases b with
    | nil => rfl
    | cons y ys => simp [charListLt] at h1
  | cons x xs ih =>
    intro b h1 h2
    cases b with
    | nil => simp [charListLt] at h2
    | cons y ys =>
      rw [charListLt] at h1 h2
      by_cases hxy : x.toNat < y.toNat
      · simp [hxy] at h1
      · by_cases hyx : y.toNat < x.toNat
        · simp [hyx] at h2
        · simp [hxy, hyx] at h1 h2
          have hn : x.toNat = y.toNat := by omega
          have hx : x = y := Char.eq_of_val_eq (UInt32.toNat.inj hn)
          rw [hx, ih ys h1 h2]

theorem strLt_irrefl (a : String) : strLt a a = false :=
  charListLt_irrefl a.data

theorem strLt_trans (a b c : String) (h1 : strLt a b = true)
    (h2 : strLt b c = true) : strLt a c = true :=
  charListLt_trans a.data b.data c.data h1 h2

theorem strLt_eq_of_negboth (a b : String) (h1 : strLt a b = false)
    (h2 : strLt b a = false) : a = b :=
  String.ext (charListLt_eq_of_negboth a.data b.data h1 h2)

theorem strLt_asymm (a b : String) (h : strLt a b = true) : strLt b a = false := by
  cases hba : strLt b a with
  | false => rfl
  | true =>
    have := strLt_trans a b a h hba
    rw [strLt_irrefl] at this
    exact this.symm

theorem strLe_total (a b : String) : (strLe a b || strLe b a) = true := by
  rw [strLe, strLe]
  cases h : strLt b a with
  | false => simp
  | true => simp [strLt_asymm b a h]

theorem strLe_trans (a b c : String) (h1 : strLe a b = true)
    (h2 : strLe b c = true) : strLe a c = true := by
  rw [strLe] at h1 h2 ⊢
  have h1' : strLt b a = false := by simpa using h1
  have h2' : strLt c b = false := by simpa using h2
  suffices h : strLt c a = false by simp [h]
  cases hab : strLt a b with
  | true =>
    cases hca : strLt c a with
    | false => rfl
    | true =>
      have := strLt_trans c a b hca hab
      rw [h2'] at this
      exact this.symm
  | false =>
    have hEq : a = b := strLt_eq_of_negboth a b hab h1'
    rw [hEq]
    exact h2'

theorem strLe_antisymm (a b : String) (h1 : strLe a b = true)
    (h2 : strLe b a = true) : a = b := by
  rw [strLe] at h1 h2
  exact strLt_eq_of_negboth a b (by simpa using h2) (by simpa using h1)

theorem colLt_asymm (c : String) (a b : Row) (h : colLt c a b = true) :
    colLt c b a = false := by
  rw [colLt] at h ⊢
  by_cases h1 : (c == "v") = true
  · simp only [h1, if_true] at h ⊢
    exact strLt_asymm _ _ h
  · by_cases h2 : (c == "created_at") = true
    · simp only [h1, h2, if_true, if_false] at h ⊢
      simp at h ⊢
      omega
    · by_cases h3 : (c == "updated_at") = true
      · simp only [h1, h2, h3, if_true, if_false] at h ⊢
        simp at h ⊢
        omega
      · simp only [h1, h2, h3, if_false] at h ⊢
        exact strLt_asymm _ _ h

theorem colLt_trans (c : String) (a b d : Row) (h1 : colLt c a b = true)
    (h2 : colLt c b d = true) : colLt c a d = true := by
  rw [colLt] at h1 h2 ⊢
  by_cases hv : (c == "v") = true
  · simp only [hv, if_true] at h1 h2 ⊢
    exact strLt_trans _ _ _ h1 h2
  · by_cases hca : (c == "created_at") = true
    · simp only [hv, hca, if_true, if_false] at h1 h2 ⊢
      simp at h1 h2 ⊢
      omega
    · by_cases hua : (c == "updated_at") = true
      · simp only [hv, hca, hua, if_true, if_false] at h1 h2 ⊢
        simp at h1 h2 ⊢
        omega
      · simp only [hv, hca, hua, if_false] at h1 h2 ⊢
        exact strLt_trans _ _ _ h1 h2

theorem colLt_negboth_subst (c : String) (x y : Row)
    (h1 : colLt c x y = false) (h2 : colLt c y x = false) (z : Row) :
    colLt c z x = colLt c z y ∧ colLt c x z = colLt c y z := by
  rw [colLt] at h1 h2
  by_cases hv : (c == "v") = true
  · simp only [hv, if_true] at h1 h2
    have hEq : x.v = y.v := strLt_eq_of_negboth _ _ h1 h2
    constructor <;> simp [colLt, hv, hEq]
  · by_cases hca : (c == "created_at") = true
    · simp only [hv, hca, if_true, if_false] at h1 h2
      simp at h1 h2
      have hEq : x.created_at = y.created_at := by omega
      constructor <;> simp [colLt, hv, hca, hEq]
    · by_cases hua : (c == "updated_at") = true
      · simp only [hv, hca, hua, if_true, if_false] at h1 h2
        simp at h1 h2
        have hEq : x.updated_at = y.updated_at := by omega
        constructor <;> simp [colLt, hv, hca, hua, hEq]
      · simp only [hv, hca, hua, if_false] at h1 h2
        have hEq : x.k = y.k := strLt_eq_of_negboth _ _ h1 h2
        constructor <;> simp [colLt, hv, hca, hua, hEq]

theorem rowLe_total (c : String) (a b : Row) :
    (rowLe c a b || rowLe c b a) = true := by
  rw [rowLe, rowLe]
  by_cases hk : (c == "k") = true
  · simp only [hk, if_true]
    exact strLe_total a.k b.k
  · simp only [hk, if_false]
    cases h1 : colLt c a b with
    | true => simp
    | false =>
      cases h2 : colLt c b a with
      | true => simp
      | false =>
        simp only [h1, h2, Bool.not_false, Bool.true_and, Bool.false_or]
        exact strLe_total a.k b.k

theorem rowLe_both_key_eq (c : String) (a b : Row) (h1 : rowLe c a b = true)
    (h2 : rowLe c b a = true) : a.k = b.k := by
  rw [rowLe] at h1 h2
  by_cases hk : (c == "k") = true
  · rw [if_pos hk] at h1 h2
    exact strLe_antisymm a.k b.k h1 h2
  · rw [if_neg hk] at h1 h2
    cases hab : colLt c a b with
    | true =>
      rw [colLt_asymm c a b hab, hab] at h2
      simp at h2
    | false =>
      cases hba : colLt c b a with
      | true =>
        rw [colLt_asymm c b a hba, hba] at h1
        simp at h1
      | false =>
        rw [hab, hba] at h1 h2
        simp at h1 h2
        exact strLe_antisymm a.k b.k h1 h2

theorem rowLe_trans (c : String) (a b d : Row) (h1 : rowLe c a b = true)
    (h2 : rowLe c b d = true) : rowLe c a d = true := by
  rw [rowLe] at h1 h2 ⊢
  by_cases hk : (c == "k") = true
  · rw [if_pos hk] at h1 h2 ⊢
    exact strLe_trans _ _ _ h1 h2
  · rw [if_neg hk] at h1 h2 ⊢
    cases hab : colLt c a b with
    | true =>
      cases hbd : colLt c b d with
      | true =>
        rw [colLt_trans c a b d hab hbd]
        simp
      | false =>
        rw [hbd] at h2
        simp at h2
        obtain ⟨hdb, _⟩ := h2
        have hsub := colLt_negboth_subst c b d hbd hdb a
        have had : colLt c a d = true := by rw [← hsub.1]; exact hab
        rw [had]
        simp
    | false =>
      rw [hab] at h1
      simp at h1
      obtain ⟨hba, hkab⟩ := h1
      have hsub := colLt_negboth_subst c a b hab hba d
      cases hbd : colLt c b d with
      | true =>
        have had : colLt c a d = true := by rw [hsub.2, hbd]
        rw [had]
        simp
      | false =>
        rw [hbd] at h2
        simp at h2
        obtain ⟨hdb, hkbd⟩ := h2
        have had : colLt c a d = false := by rw [hsub.2, hbd]
        have hda : colLt c d a = false := by rw [hsub.1, hdb]
        rw [had, hda]
        simp
        exact strLe_trans _ _ _ hkab hkbd

theorem sortR_total (c : String) (rev : Bool) (a b : Row) :
    SortR c rev a b ∨ SortR c rev b a := by
  cases rev with
  | false =>
    have := rowLe_total c a b
    rcases Bool.or_eq_true _ _ |>.mp this with h | h
    · exact Or.inl h
    · exact Or.inr h
  | true =>
    have := rowLe_total c b a
    rcases Bool.or_eq_true _ _ |>.mp this with h | h
    · exact Or.inl h
    · exact Or.inr h

theorem sortR_trans (c : String) (rev : Bool) (a b d : Row)
    (h1 : SortR c rev a b) (h2 : SortR c rev b d) : SortR c rev a d := by
  cases rev with
  | false => exact rowLe_trans c a b d h1 h2
  | true => exact rowLe_trans c d b a h2 h1

theorem sortR_both_key_eq (c : String) (rev : Bool) (a b : Row)
    (h1 : SortR c rev a b) (h2 : SortR c rev b a) : a.k = b.k := by
  cases rev with
  | false => exact rowLe_both_key_eq c a b h1 h2
  | true => exact (rowLe_both_key_eq c b a h1 h2).symm

/-- The descending sort of a list of rows with pairwise distinct keys is the
exact reverse of the ascending sort: the ORDER BY relation together with the
key tie-breaker is a total order on such rows, so the sorted permutation is
unique in both directions. -/
theorem sortedDesc_eq_reverse (c : String) (l : List Row)
    (hnd : l.Pairwise fun a b => a.k ≠ b.k) :
    l.insertionSort (SortR c true) = (l.insertionSort (SortR c false)).reverse := by
  haveI htotT : IsTotal Row (SortR c true) := ⟨sortR_total c true⟩
  haveI htransT : IsTrans Row (SortR c true) := ⟨sortR_trans c true⟩
  haveI htotF : IsTotal Row (SortR c false) := ⟨sortR_total c false⟩
  haveI htransF : IsTrans Row (SortR c false) := ⟨sortR_trans c false⟩
  have hkSymm : ∀ {x y : Row}, x.k ≠ y.k → y.k ≠ x.k := fun h heq => h heq.symm
  have hpermT := List.perm_insertionSort (SortR c true) l
  have hpermF := List.perm_insertionSort (SortR c false) l
  have hperm : (l.insertionSort (SortR c true)).Perm
      ((l.insertionSort (SortR c false)).reverse) :=
    hpermT.trans (hpermF.symm.trans ((l.insertionSort (SortR c false)).reverse_perm).symm)
  have hndT : (l.insertionSort (SortR c true)).Pairwise (fun a b => a.k ≠ b.k) :=
    (hpermT.pairwise_iff fun hxy => hkSymm hxy).mpr hnd
  have hndF : (l.insertionSort (SortR c false)).Pairwise (fun a b => a.k ≠ b.k) :=
    (hpermF.pairwise_iff fun hxy => hkSymm hxy).mpr hnd
  have hndR : ((l.insertionSort (SortR c false)).reverse).Pairwise
      (fun a b => a.k ≠ b.k) :=
    List.pairwise_reverse.mpr (hndF.imp fun hxy => hkSymm hxy)
  have hsT : (l.insertionSort (SortR c true)).Pairwise (SortR c true) :=
    List.sorted_insertionSort (SortR c true) l
  have hsF : (l.insertionSort (SortR c false)).Pairwise (SortR c false) :=
    List.sorted_insertionSort (SortR c false) l
  have hsR : ((l.insertionSort (SortR c false)).reverse).Pairwise (SortR c true) :=
    List.pairwise_reverse.mpr (hsF.imp fun hxy => hxy)
  haveI : IsAntisymm Row (fun a b => SortR c true a b ∧ a.k ≠ b.k) :=
    ⟨fun a b h1 h2 => absurd (sortR_both_key_eq c true a b h1.1 h2.1) h1.2⟩
  exact List.eq_of_perm_of_sorted hperm (hsT.and hndT) (hsR.and hndR)

theorem list_eval (p : String) (o : KvListOptsGiven) (s : Store)
    (hc : validColumns.contains (mergeOptions o).orderBy = true) :
    list p o s = .ok
      { data := (((s.filter fun r => listPred p (mergeOptions o).includeExactMatch r.k).insertionSort
            (SortR (mergeOptions o).orderBy (mergeOptions o).reverse)).drop
          (mergeOptions o).offset).take (mergeOptions o).limit,
        meta := { toKvListOptions := mergeOptions o,
                  total := (s.filter fun r =>
                    listPred p (mergeOptions o).includeExactMatch r.k).length } } := by
  rw [list]
  simp only [hc, Bool.not_true, Bool.false_eq_true, if_false]

theorem list_eval_err (p : String) (o : KvListOptsGiven) (s : Store)
    (hc : validColumns.contains (mergeOptions o).orderBy = false) :
    list p o s = .error (.kvMsg ("Invalid orderBy column: " ++ (mergeOptions o).orderBy ++ ".")) := by
  rw [list]
  simp only [hc, Bool.not_false, if_true]

/-- C4: every record `list` returns comes from the store and satisfies the
claimed match predicate — its key starts with the normalized `scanPfx`
(trailing `:` appended when the caller's prefix string is non-empty and not
already `:`-terminated; the empty string matches every key), or, when
`includeExactMatch` is set, its key equals the original unmodified prefix
argument; and conversely, whenever the offset/limit window covers all
matching rows (offset 0, limit at least the match count), every store
record satisfying the predicate is returned. -/
theorem listMembers (p : String) (o : KvListOptsGiven) (s : Store)
    (out : KvListOutput) (h : list p o s = .ok out) :
    (∀ r, r ∈ out.data → r ∈ s ∧
      (strStartsWith r.k (scanPfx p) = true ∨
        ((mergeOptions o).includeExactMatch = true ∧ r.k = p)))
    ∧ ((mergeOptions o).offset = 0 →
        (s.filter fun r => listPred p (mergeOptions o).includeExactMatch r.k).length ≤
          (mergeOptions o).limit →
        ∀ r, r ∈ s →
          (strStartsWith r.k (scanPfx p) = true ∨
            ((mergeOptions o).includeExactMatch = true ∧ r.k = p)) →
          r ∈ out.data) := by
  have hpred : ∀ k : String,
      listPred p (mergeOptions o).includeExactMatch k = true ↔
        (strStartsWith k (scanPfx p) = true ∨
          ((mergeOptions o).includeExactMatch = true ∧ k = p)) := by
    intro k
    simp [listPred]
  cases hc : validColumns.contains (mergeOptions o).orderBy with
  | false => rw [list_eval_err p o s hc] at h; exact absurd h (by simp)
  | true =>
    rw [list_eval p o s hc] at h
    have hout := Except.ok.inj h
    rw [← hout]
    constructor
    · intro r hr
      simp only at hr
      have hr1 : r ∈ ((s.filter fun r => listPred p (mergeOptions o).includeExactMatch r.k).insertionSort
          (SortR (mergeOptions o).orderBy (mergeOptions o).reverse)).drop (mergeOptions o).offset :=
        List.take_subset _ _ hr
      have hr2 := List.drop_subset _ _ hr1
      have hr3 := (List.mem_insertionSort _).mp hr2
      have hr4 := List.mem_filter.mp hr3
      exact ⟨hr4.1, (hpred r.k).mp hr4.2⟩
    · intro hoff hlim r hrs hrp
      simp only
      have hmem : r ∈ (s.filter fun r => listPred p (mergeOptions o).includeExactMatch r.k) :=
        List.mem_filter.mpr ⟨hrs, (hpred r.k).mpr hrp⟩
      have hmem2 : r ∈ ((s.filter fun r => listPred p (mergeOptions o).includeExactMatch r.k).insertionSort
          (SortR (mergeOptions o).orderBy (mergeOptions o).reverse)) :=
        (List.mem_insertionSort _).mpr hmem
      rw [hoff, List.drop_zero, List.take_of_length_le]
      · exact hmem2
      · rw [List.length_insertionSort]
        exact hlim

/-- C5: with explicit `limit` and `offset`, `list` returns at most `limit`
records while `meta.total` is the count of all records matching the
predicate, independent of limit and offset; `limit = 0` gives empty data,
and an offset at or beyond the match count gives empty data, in both cases
with the same correct total. -/
theorem listLimitTotal (p : String) (L O : Nat) (s : Store) (out : KvListOutput)
    (h : list p { limit? := some L, offset? := some O } s = .ok out) :
    out.data.length ≤ L
    ∧ out.meta.total = (s.filter fun r => listPred p false r.k).length
    ∧ (L = 0 → out.data = [])
    ∧ ((s.filter fun r => listPred p false r.k).length ≤ O → out.data = []) := by
  rw [list_eval p { limit? := some L, offset? := some O } s rfl] at h
  simp only [mergeOptions, defaultOptions, Option.getD_some, Option.getD_none] at h
  have hout := Except.ok.inj h
  rw [← hout]
  refine ⟨?_, rfl, ?_, ?_⟩
  · simp only [List.length_take]
    exact min_le_left _ _
  · intro hL
    subst hL
    simp
  · intro hO
    have hnil : ((s.filter fun r => listPred p false r.k).insertionSort
        (SortR "k" false)).drop O = [] := by
      apply List.drop_eq_nil_of_le
      rw [List.length_insertionSort]
      exact hO
    simp only [hnil, List.take_nil]

/-- C8 (amended): for every valid orderBy column, listing with
`reverse: true` returns the exact reverse of listing with `reverse: false`
— including the reversed default-column tie-breaker — provided the
offset/limit window covers all matching rows (with these options the
defaults are offset 0 and limit 100, so: at most 100 matches).  Distinct
keys are the table's PRIMARY KEY invariant.  Without the window condition
the two calls truncate different ends of the ordering, so the equality
fails (see the counterexample). -/
theorem listReverse_windowed (p c : String) (s : Store)
    (hc : validColumns.contains c = true)
    (hnd : (s.map Row.k).Nodup)
    (hlen : (s.filter fun r => listPred p false r.k).length ≤ 100) :
    dataOf (list p { orderBy? := some c, reverse? := some true } s) =
      (dataOf (list p { orderBy? := some c, reverse? := some false } s)).reverse := by
  have hc1 : validColumns.contains
      (mergeOptions { orderBy? := some c, reverse? := some true }).orderBy = true := hc
  have hc2 : validColumns.contains
      (mergeOptions { orderBy? := some c, reverse? := some false }).orderBy = true := hc
  rw [list_eval p { orderBy? := some c, reverse? := some true } s hc1,
    list_eval p { orderBy? := some c, reverse? := some false } s hc2]
  simp only [mergeOptions, defaultOptions, Option.getD_some, Option.getD_none, dataOf]
  rw [List.drop_zero, List.drop_zero]
  have hlenT : ((s.filter fun r => listPred p false r.k).insertionSort
      (SortR c true)).length ≤ 100 := by
    rw [List.length_insertionSort]; exact hlen
  have hlenF : ((s.filter fun r => listPred p false r.k).insertionSort
      (SortR c false)).length ≤ 100 := by
    rw [List.length_insertionSort]; exact hlen
  rw [List.take_of_length_le hlenT, List.take_of_length_le hlenF]
  apply sortedDesc_eq_reverse
  have h1 : ((s.filter fun r => listPred p false r.k).map Row.k).Nodup :=
    hnd.sublist ((List.filter_sublist s).map Row.k)
  exact List.pairwise_map.mp h1

/-- Kernel-computable digit character, for building the counterexample
store. -/
def digitChar (n : Nat) : Char :=
  match n with
  | 0 => '0'
  | 1 => '1'
  | 2 => '2'
  | 3 => '3'
  | 4 => '4'
  | 5 => '5'
  | 6 => '6'
  | 7 => '7'
  | 8 => '8'
  | _ => '9'

/-- Two-digit decimal key for the counterexample store. -/
def twoDigitKey (i : Nat) : String :=
  String.mk [digitChar (i / 10), digitChar (i % 10)]

/-- 101 rows with distinct keys "00".."99" and "xx": one more matching row
than the default limit. -/
def bigStore : Store :=
  ((List.range 100).map fun i =>
    { k := twoDigitKey i, v := "0", created_at := 0, updated_at := 0 }) ++
  [{ k := "xx", v := "0", created_at := 0, updated_at := 0 }]

/-- C8 (counterexample to the claim as stated): on a store with 101
matching records, the default limit 100 truncates the two orderings at
opposite ends, so `list(p, { orderBy: "k", reverse: true }).data` is not
the reverse of `list(p, { orderBy: "k", reverse: false }).data`. -/
theorem listReverse_cex :
    dataOf (list "" { orderBy? := some "k", reverse? := some true } bigStore) ≠
      (dataOf (list "" { orderBy? := some "k", reverse? := some false } bigStore)).reverse := by
  decide

/-! Witnesses: each applies its claim's theorem at a concrete input and
discharges the hypotheses there. -/

theorem txRollback_onCallbackError_witness :
    runNested (some ((fun _ => none) : Lsn)) 0 [Cmd.setC "a" (some "1"), Cmd.failC 3]
        (txEnter { store := [], buf := [], log := [] }) =
      (.error (.user 3),
        { store := [{ k := "a", v := "1", created_at := 0, updated_at := 0 }],
          buf := [KvEvent.set (evOfRow
            { k := "a", v := "1", created_at := 0, updated_at := 0 })],
          log := [Action.began] })
    ∧ transaction (some ((fun _ => none) : Lsn)) 0 SessKind.root
        [Cmd.setC "a" (some "1"), Cmd.failC 3] 0
        { store := [], buf := [], log := [] } =
      (.error (.kv (.user 3)),
        { store := [], buf := [],
          log := [Action.began, Action.rolledBack] }) :=
  ⟨by decide,
    txRollback_onCallbackError (some ((fun _ => none) : Lsn)) 0
      [Cmd.setC "a" (some "1"), Cmd.failC 3] 0
      { store := [], buf := [], log := [] } (.user 3)
      { store := [{ k := "a", v := "1", created_at := 0, updated_at := 0 }],
        buf := [KvEvent.set (evOfRow
          { k := "a", v := "1", created_at := 0, updated_at := 0 })],
        log := [Action.began] }
      (by decide)⟩

theorem txCommit_replaysBuffer_witness :
    (∀ ev : KvEvent, (fun _ => (none : Option Err)) ev = none)
    ∧ runNested (some ((fun _ => none) : Lsn)) 0
        [Cmd.setC "a" (some "1"), Cmd.setC "b" none, Cmd.delC "a"]
        (txEnter { store := [], buf := [], log := [] }) =
      (.ok (),
        { store := [],
          buf := [KvEvent.set (evOfRow
              { k := "a", v := "1", created_at := 0, updated_at := 0 }),
            KvEvent.delete { k := none, v := none, created_at := none,
                             updated_at := some 0 },
            KvEvent.delete { k := some "a", v := none, created_at := some 0,
                             updated_at := some 0 }],
          log := [Action.began] })
    ∧ (transaction (some ((fun _ => none) : Lsn)) 0 SessKind.root
          [Cmd.setC "a" (some "1"), Cmd.setC "b" none, Cmd.delC "a"] 0
          { store := [], buf := [], log := [] } =
        (.ok 0,
          { store := [], buf := [],
            log := ([] ++ [Action.began, Action.committed]) ++
              ([KvEvent.set (evOfRow
                  { k := "a", v := "1", created_at := 0, updated_at := 0 }),
                KvEvent.delete { k := none, v := none, created_at := none,
                                 updated_at := some 0 },
                KvEvent.delete { k := some "a", v := none, created_at := some 0,
                                 updated_at := some 0 }].map Action.invoked) })
        ∧ [KvEvent.set (evOfRow
              { k := "a", v := "1", created_at := 0, updated_at := 0 }),
            KvEvent.delete { k := none, v := none, created_at := none,
                             updated_at := some 0 },
            KvEvent.delete { k := some "a", v := none, created_at := some 0,
                             updated_at := some 0 }].map KvEvent.isSetEv =
          [Cmd.setC "a" (some "1"), Cmd.setC "b" none,
            Cmd.delC "a"].map Cmd.emitsSetEvent) :=
  ⟨fun _ => rfl, by decide,
    txCommit_replaysBuffer (fun _ => none) 0
      [Cmd.setC "a" (some "1"), Cmd.setC "b" none, Cmd.delC "a"] 0
      { store := [], buf := [], log := [] }
      { store := [],
        buf := [KvEvent.set (evOfRow
            { k := "a", v := "1", created_at := 0, updated_at := 0 }),
          KvEvent.delete { k := none, v := none, created_at := none,
                           updated_at := some 0 },
          KvEvent.delete { k := some "a", v := none, created_at := some 0,
                           updated_at := some 0 }],
        log := [Action.began] }
      (fun _ => rfl) (by decide)⟩

theorem txListenerThrow_wrappedRollback_witness :
    runNested (some ((fun _ => some (Err.user 7)) : Lsn)) 0 [Cmd.setC "a" (some "1")]
        (txEnter { store := [], buf := [], log := [] }) =
      (.ok (),
        { store := [{ k := "a", v := "1", created_at := 0, updated_at := 0 }],
          buf := [KvEvent.set (evOfRow
            { k := "a", v := "1", created_at := 0, updated_at := 0 })],
          log := [Action.began] })
    ∧ replay (fun _ => some (Err.user 7))
        [KvEvent.set (evOfRow
          { k := "a", v := "1", created_at := 0, updated_at := 0 })]
        { store := [{ k := "a", v := "1", created_at := 0, updated_at := 0 }],
          buf := [], log := [Action.began] ++ [Action.committed] } =
      (.error (.user 7),
        { store := [{ k := "a", v := "1", created_at := 0, updated_at := 0 }],
          buf := [],
          log := [Action.began, Action.committed,
            Action.invoked (KvEvent.set (evOfRow
              { k := "a", v := "1", created_at := 0, updated_at := 0 }))] })
    ∧ (transaction (some ((fun _ => some (Err.user 7)) : Lsn)) 0 SessKind.root
          [Cmd.setC "a" (some "1")] 0 { store := [], buf := [], log := [] } =
        (.error (.kv (.user 7)),
          { store := [{ k := "a", v := "1", created_at := 0, updated_at := 0 }],
            buf := [],
            log := [Action.began, Action.committed,
              Action.invoked (KvEvent.set (evOfRow
                { k := "a", v := "1", created_at := 0, updated_at := 0 })),
              Action.rolledBack] })
        ∧ ([{ k := "a", v := "1", created_at := 0, updated_at := 0 }] : Store) =
          [{ k := "a", v := "1", created_at := 0, updated_at := 0 }]
        ∧ ([] : List KvEvent) = []) :=
  ⟨by decide, by decide,
    txListenerThrow_wrappedRollback (fun _ => some (Err.user 7)) 0 0
      [Cmd.setC "a" (some "1")]
      { store := [], buf := [], log := [] }
      { store := [{ k := "a", v := "1", created_at := 0, updated_at := 0 }],
        buf := [KvEvent.set (evOfRow
          { k := "a", v := "1", created_at := 0, updated_at := 0 })],
        log := [Action.began] }
      { store := [{ k := "a", v := "1", created_at := 0, updated_at := 0 }],
        buf := [],
        log := [Action.began, Action.committed,
          Action.invoked (KvEvent.set (evOfRow
            { k := "a", v := "1", created_at := 0, updated_at := 0 }))] }
      (.user 7) (by decide) (by decide)⟩

theorem setNull_routesToDelete_witness :
    (∀ ev : KvEvent, (fun _ => (none : Option Err)) ev = none)
    ∧ ((set SessKind.root (some ((fun _ => none) : Lsn)) "a" none 2000
          { store := [{ k := "a", v := "1", created_at := 5, updated_at := 5 }],
            buf := [], log := [] }).1 = .ok none
      ∧ (set SessKind.root (some ((fun _ => none) : Lsn)) "a" none 2000
          { store := [{ k := "a", v := "1", created_at := 5, updated_at := 5 }],
            buf := [], log := [] }).2 =
        (del SessKind.root (some ((fun _ => none) : Lsn)) "a" 2000
          { store := [{ k := "a", v := "1", created_at := 5, updated_at := 5 }],
            buf := [], log := [] }).2
      ∧ (set SessKind.root (some ((fun _ => none) : Lsn)) "a" none 2000
          { store := [{ k := "a", v := "1", created_at := 5, updated_at := 5 }],
            buf := [], log := [] }).2.store =
        deleteRow [{ k := "a", v := "1", created_at := 5, updated_at := 5 }] "a"
      ∧ (if SessKind.root = SessKind.nested then
          (set SessKind.root (some ((fun _ => none) : Lsn)) "a" none 2000
            { store := [{ k := "a", v := "1", created_at := 5, updated_at := 5 }],
              buf := [], log := [] }).2.buf =
            [] ++ [KvEvent.delete (deleteEvRec (selectByKey
              [{ k := "a", v := "1", created_at := 5, updated_at := 5 }] "a") 2000)] ∧
          (set SessKind.root (some ((fun _ => none) : Lsn)) "a" none 2000
            { store := [{ k := "a", v := "1", created_at := 5, updated_at := 5 }],
              buf := [], log := [] }).2.log = []
        else
          (set SessKind.root (some ((fun _ => none) : Lsn)) "a" none 2000
            { store := [{ k := "a", v := "1", created_at := 5, updated_at := 5 }],
              buf := [], log := [] }).2.log =
            [] ++ [Action.invoked (KvEvent.delete (deleteEvRec (selectByKey
              [{ k := "a", v := "1", created_at := 5, updated_at := 5 }] "a") 2000))] ∧
          (set SessKind.root (some ((fun _ => none) : Lsn)) "a" none 2000
            { store := [{ k := "a", v := "1", created_at := 5, updated_at := 5 }],
              buf := [], log := [] }).2.buf = [])
      ∧ get (set SessKind.root (some ((fun _ => none) : Lsn)) "a" none 2000
          { store := [{ k := "a", v := "1", created_at := 5, updated_at := 5 }],
            buf := [], log := [] }).2.store "a" = .ok none) :=
  ⟨fun _ => rfl,
    setNull_routesToDelete SessKind.root (fun _ => none) "a" 2000
      { store := [{ k := "a", v := "1", created_at := 5, updated_at := 5 }],
        buf := [], log := [] }
      (fun _ => rfl)⟩

theorem deleteMissingKey_event_witness :
    selectByKey [{ k := "b", v := "2", created_at := 3, updated_at := 3 }] "a" = none
    ∧ (∀ ev : KvEvent, (fun _ => (none : Option Err)) ev = none)
    ∧ del SessKind.root (some ((fun _ => none) : Lsn)) "a" 1234567
        { store := [{ k := "b", v := "2", created_at := 3, updated_at := 3 }],
          buf := [], log := [] } =
      (.ok (),
        if SessKind.root = SessKind.nested then
          { store := [{ k := "b", v := "2", created_at := 3, updated_at := 3 }],
            buf := [] ++ [KvEvent.delete
              { k := none, v := none, created_at := none,
                updated_at := some (1234567 / 1000) }],
            log := [] }
        else
          { store := [{ k := "b", v := "2", created_at := 3, updated_at := 3 }],
            buf := [],
            log := [] ++ [Action.invoked (KvEvent.delete
              { k := none, v := none, created_at := none,
                updated_at := some (1234567 / 1000) })] }) :=
  ⟨by decide, fun _ => rfl,
    deleteMissingKey_event SessKind.root (fun _ => none) "a" 1234567
      { store := [{ k := "b", v := "2", created_at := 3, updated_at := 3 }],
        buf := [], log := [] }
      (by decide) (fun _ => rfl)⟩

theorem listMembers_witness :
    list "a" { includeExactMatch? := some true }
        [{ k := "a", v := "1", created_at := 0, updated_at := 0 },
          { k := "a:1", v := "2", created_at := 0, updated_at := 0 },
          { k := "ab", v := "3", created_at := 0, updated_at := 0 }] =
      .ok { data := [{ k := "a", v := "1", created_at := 0, updated_at := 0 },
                     { k := "a:1", v := "2", created_at := 0, updated_at := 0 }],
            meta := { limit := 100, offset := 0, reverse := false, orderBy := "k",
                      includeExactMatch := true, total := 2 } }
    ∧ ((∀ r : Row,
          r ∈ ([{ k := "a", v := "1", created_at := 0, updated_at := 0 },
                { k := "a:1", v := "2", created_at := 0, updated_at := 0 }] : List Row) →
          r ∈ ([{ k := "a", v := "1", created_at := 0, updated_at := 0 },
                { k := "a:1", v := "2", created_at := 0, updated_at := 0 },
                { k := "ab", v := "3", created_at := 0, updated_at := 0 }] : List Row) ∧
            (strStartsWith r.k (scanPfx "a") = true ∨ (true = true ∧ r.k = "a")))
      ∧ ((0 : Nat) = 0 →
          (List.filter (fun r => listPred "a" true r.k)
            ([{ k := "a", v := "1", created_at := 0, updated_at := 0 },
              { k := "a:1", v := "2", created_at := 0, updated_at := 0 },
              { k := "ab", v := "3", created_at := 0, updated_at := 0 }] : List Row)).length ≤ 100 →
          ∀ r : Row,
            r ∈ ([{ k := "a", v := "1", created_at := 0, updated_at := 0 },
                  { k := "a:1", v := "2", created_at := 0, updated_at := 0 },
                  { k := "ab", v := "3", created_at := 0, updated_at := 0 }] : List Row) →
            (strStartsWith r.k (scanPfx "a") = true ∨ (true = true ∧ r.k = "a")) →
            r ∈ ([{ k := "a", v := "1", created_at := 0, updated_at := 0 },
                  { k := "a:1", v := "2", created_at := 0, updated_at := 0 }] : List Row))) :=
  ⟨by decide,
    listMembers "a" { includeExactMatch? := some true }
      [{ k := "a", v := "1", created_at := 0, updated_at := 0 },
        { k := "a:1", v := "2", created_at := 0, updated_at := 0 },
        { k := "ab", v := "3", created_at := 0, updated_at := 0 }]
      { data := [{ k := "a", v := "1", created_at := 0, updated_at := 0 },
                 { k := "a:1", v := "2", created_at := 0, updated_at := 0 }],
        meta := { limit := 100, offset := 0, reverse := false, orderBy := "k",
                  includeExactMatch := true, total := 2 } }
      (by decide)⟩

theorem listLimitTotal_witness :
    list "t" { limit? := some 2, offset? := some 0 }
        [{ k := "t:1", v := "1", created_at := 0, updated_at := 0 },
          { k := "t:2", v := "2", created_at := 0, updated_at := 0 },
          { k := "t:3", v := "3", created_at := 0, updated_at := 0 }] =
      .ok { data := [{ k := "t:1", v := "1", created_at := 0, updated_at := 0 },
                     { k := "t:2", v := "2", created_at := 0, updated_at := 0 }],
            meta := { limit := 2, offset := 0, reverse := false, orderBy := "k",
                      includeExactMatch := false, total := 3 } }
    ∧ (([{ k := "t:1", v := "1", created_at := 0, updated_at := 0 },
          { k := "t:2", v := "2", created_at := 0, updated_at := 0 }] : List Row).length ≤ 2
      ∧ (3 : Nat) =
        (List.filter (fun r => listPred "t" false r.k)
          ([{ k := "t:1", v := "1", created_at := 0, updated_at := 0 },
            { k := "t:2", v := "2", created_at := 0, updated_at := 0 },
            { k := "t:3", v := "3", created_at := 0, updated_at := 0 }] : List Row)).length
      ∧ ((2 : Nat) = 0 →
          ([{ k := "t:1", v := "1", created_at := 0, updated_at := 0 },
            { k := "t:2", v := "2", created_at := 0, updated_at := 0 }] : List Row) = [])
      ∧ ((List.filter (fun r => listPred "t" false r.k)
            ([{ k := "t:1", v := "1", created_at := 0, updated_at := 0 },
              { k := "t:2", v := "2", created_at := 0, updated_at := 0 },
              { k := "t:3", v := "3", created_at := 0, updated_at := 0 }] : List Row)).length ≤ 0 →
          ([{ k := "t:1", v := "1", created_at := 0, updated_at := 0 },
            { k := "t:2", v := "2", created_at := 0, updated_at := 0 }] : List Row) = [])) :=
  ⟨by decide,
    listLimitTotal "t" 2 0
      [{ k := "t:1", v := "1", created_at := 0, updated_at := 0 },
        { k := "t:2", v := "2", created_at := 0, updated_at := 0 },
        { k := "t:3", v := "3", created_at := 0, updated_at := 0 }]
      { data := [{ k := "t:1", v := "1", created_at := 0, updated_at := 0 },
                 { k := "t:2", v := "2", created_at := 0, updated_at := 0 }],
        meta := { limit := 2, offset := 0, reverse := false, orderBy := "k",
                  includeExactMatch := false, total := 3 } }
      (by decide)⟩

theorem listReverse_windowed_witness :
    validColumns.contains "updated_at" = true
    ∧ (([{ k := "a:1", v := "1", created_at := 0, updated_at := 5 },
          { k := "a:2", v := "2", created_at := 0, updated_at := 5 },
          { k := "a:3", v := "3", created_at := 0, updated_at := 2 }] : Store).map Row.k).Nodup
    ∧ (([{ k := "a:1", v := "1", created_at := 0, updated_at := 5 },
          { k := "a:2", v := "2", created_at := 0, updated_at := 5 },
          { k := "a:3", v := "3", created_at := 0, updated_at := 2 }] : Store).filter
        (fun r => listPred "a" false r.k)).length ≤ 100
    ∧ dataOf (list "a" { orderBy? := some "updated_at", reverse? := some true }
        [{ k := "a:1", v := "1", created_at := 0, updated_at := 5 },
          { k := "a:2", v := "2", created_at := 0, updated_at := 5 },
          { k := "a:3", v := "3", created_at := 0, updated_at := 2 }]) =
      (dataOf (list "a" { orderBy? := some "updated_at", reverse? := some false }
        [{ k := "a:1", v := "1", created_at := 0, updated_at := 5 },
          { k := "a:2", v := "2", created_at := 0, updated_at := 5 },
          { k := "a:3", v := "3", created_at := 0, updated_at := 2 }])).reverse :=
  ⟨by decide, by decide, by decide,
    listReverse_windowed "a" "updated_at"
      [{ k := "a:1", v := "1", created_at := 0, updated_at := 5 },
        { k := "a:2", v := "2", created_at := 0, updated_at := 5 },
        { k := "a:3", v := "3", created_at := 0, updated_at := 2 }]
      (by decide) (by decide) (by decide)⟩

end RouterKV
